import Mathlib

/-!
Verification of the LocalTileMapDownloader tile pipeline.

This file gives a shallow embedding of the two core modules
(`extractors.py` and `tile_writer.py`) and proves the stated properties
about them.  Python floats are modelled as real numbers, Python `int()`
applied to a float as truncation toward zero, the filesystem as a finite
tree of named nodes, and Python dictionaries as association lists kept in
insertion order.
-/

namespace TileMap

/-! ## Coordinate conversion (`src/extractors.py`, class `CoordinateConverter`) -/

/-- Python `int(x)` applied to a float: truncation toward zero
(floor for non-negative arguments, ceiling for negative ones). -/
noncomputable def pyTrunc (x : ℝ) : ℤ := if 0 ≤ x then ⌊x⌋ else ⌈x⌉

/-- A bounding box `[min_lon, min_lat, max_lon, max_lat]` in degrees,
as unpacked by the Python code. -/
structure Bbox where
  min_lon : ℝ
  min_lat : ℝ
  max_lon : ℝ
  max_lat : ℝ

/-- A tile range `(min_x, max_x, min_y, max_y)` as returned by
`bbox_to_tile_range` and `bbox_to_tile_range_tms`. -/
structure TileRange where
  min_x : ℤ
  max_x : ℤ
  min_y : ℤ
  max_y : ℤ

/-- Model of `CoordinateConverter.lat_lon_to_tile` (extractors.py lines 19-26):
`lat_rad = radians(lat)`, `n = 2.0 ** zoom`,
`xtile = int((lon + 180) / 360 * n)`,
`ytile = int((1 - asinh(tan(lat_rad)) / pi) / 2 * n)`. -/
noncomputable def lat_lon_to_tile (lat lon : ℝ) (zoom : ℕ) : ℤ × ℤ :=
  let lat_rad : ℝ := lat * Real.pi / 180
  let n : ℝ := 2 ^ zoom
  let xtile : ℤ := pyTrunc ((lon + 180) / 360 * n)
  let ytile : ℤ := pyTrunc ((1 - Real.arsinh (Real.tan lat_rad) / Real.pi) / 2 * n)
  (xtile, ytile)

/-- The top-origin/bottom-origin row conversion `(2 ** zoom - 1) - row`,
which appears inline at extractors.py lines 49-50 (XYZ→TMS) and
line 121 (TMS→XYZ). -/
def toBottom (zoom : ℕ) (r : ℤ) : ℤ := (2 ^ zoom - 1) - r

/-- Model of `CoordinateConverter.bbox_to_tile_range` (extractors.py lines 28-37):
`min_x, max_y = lat_lon_to_tile(min_lat, min_lon, zoom)`,
`max_x, min_y = lat_lon_to_tile(max_lat, max_lon, zoom)`. -/
noncomputable def bbox_to_tile_range (bbox : Bbox) (zoom : ℕ) : TileRange :=
  let p1 := lat_lon_to_tile bbox.min_lat bbox.min_lon zoom
  let p2 := lat_lon_to_tile bbox.max_lat bbox.max_lon zoom
  ⟨p1.1, p2.1, p2.2, p1.2⟩

/-- Model of `CoordinateConverter.bbox_to_tile_range_tms` (extractors.py lines 39-52):
same corner computation, then
`tms_min_y = (2 ** zoom - 1) - max_y`, `tms_max_y = (2 ** zoom - 1) - min_y`. -/
noncomputable def bbox_to_tile_range_tms (bbox : Bbox) (zoom : ℕ) : TileRange :=
  let p1 := lat_lon_to_tile bbox.min_lat bbox.min_lon zoom
  let p2 := lat_lon_to_tile bbox.max_lat bbox.max_lon zoom
  ⟨p1.1, p2.1, toBottom zoom p1.2, toBottom zoom p2.2⟩

/-- Model of `CoordinateConverter.tile_to_bbox` (extractors.py lines 54-62):
`lon_west = x / n * 360 - 180`, `lon_east = (x+1) / n * 360 - 180`,
`lat_north = degrees(atan(sinh(pi * (1 - 2*y/n))))` and the same with
`y+1` for `lat_south`; returned as `[lon_west, lat_south, lon_east, lat_north]`. -/
noncomputable def tile_to_bbox (x y : ℤ) (zoom : ℕ) : Bbox :=
  let n : ℝ := 2 ^ zoom
  let lon_west : ℝ := x / n * 360 - 180
  let lon_east : ℝ := (x + 1) / n * 360 - 180
  let lat_north : ℝ := Real.arctan (Real.sinh (Real.pi * (1 - 2 * y / n))) * 180 / Real.pi
  let lat_south : ℝ := Real.arctan (Real.sinh (Real.pi * (1 - 2 * (y + 1) / n))) * 180 / Real.pi
  ⟨lon_west, lat_south, lon_east, lat_north⟩

/-! ## MBTiles extraction (`src/extractors.py`, class `MBTilesExtractor`)

`extract_tiles` opens the SQLite file, queries rows within the computed
range, and flips each row's `tile_row` back to XYZ.  All fallible
operations (connect, execute, fetchall) happen before the result loop, so
they are modelled as a single `Except`-valued query outcome; the
`except Exception` handler that logs and falls through to `return tiles`
is the `Except.error` branch, whose tile list is still the initial `[]`. -/

/-- A row of the `tiles` table: `(tile_column, tile_row, tile_data)`,
with `tile_row` in the bottom-origin (TMS) convention. -/
abbrev DbRow := ℤ × ℤ × List ℕ

/-- Model of `MBTilesExtractor.extract_tiles` (extractors.py lines 100-127), with
the database interaction abstracted into its outcome `query`. -/
def extract_tiles (zoom : ℕ) (query : Except String (List DbRow)) : List DbRow :=
  match query with
  | .error _ => []
  | .ok rows => rows.map fun r => (r.1, toBottom zoom r.2.1, r.2.2)

/-! ## Filesystem names

`tile_writer.py` manipulates directory and file names produced by
`str(integer)` and `f"{row}.{ext}"`, and scans back arbitrary names with
`int(...)`, `str.isdigit()`, `str.endswith(...)` and `str.split('.')`.
Names are modelled in three injectively distinct classes:
`ofInt n` is `str(n)` for an integer `n`, `dotted n ext` is
`f"{n}.{ext}"` where `ext` is a non-empty extension containing no dot,
and `raw s` is any other literal name (used for names that are not of the
first two shapes, e.g. `"abc.png"`).  The Python string operations are
modelled class by class. -/

inductive Name where
  | ofInt (n : ℤ)
  | dotted (n : ℤ) (ext : String)
  | raw (s : String)
deriving DecidableEq

/-- Decimal digit test for a character. -/
def isDigitChar (c : Char) : Bool := decide ('0' ≤ c) && decide (c ≤ '9')

/-- Value of a list of decimal digit characters. -/
def digitsVal (l : List Char) : ℕ :=
  l.foldl (fun a c => a * 10 + (c.toNat - '0'.toNat)) 0

/-- Python `int(s)` on a character list: optional sign followed by at
least one digit; `none` models `ValueError`. -/
def pyIntChars (cs : List Char) : Option ℤ :=
  match cs with
  | '-' :: rest =>
      if rest ≠ [] && rest.all isDigitChar then some (-(digitsVal rest : ℤ)) else none
  | _ => if cs ≠ [] && cs.all isDigitChar then some (digitsVal cs : ℤ) else none

/-- Python `int(name)`: `int(str(n)) = n`; `f"{n}.{ext}"` never parses;
other names parse by `pyIntChars`. -/
def pyIntName (nm : Name) : Option ℤ :=
  match nm with
  | .ofInt n => some n
  | .dotted _ _ => none
  | .raw s => pyIntChars s.toList

/-- Python `name.isdigit()`: `str(n).isdigit()` holds iff `0 ≤ n`
(a sign character is not a digit); `f"{n}.{ext}"` contains a dot. -/
def pyIsdigitName (nm : Name) : Bool :=
  match nm with
  | .ofInt n => decide (0 ≤ n)
  | .dotted _ _ => false
  | .raw s => s.toList ≠ [] && s.toList.all isDigitChar

/-- Python `any(name.endswith(e) for e in exts)` where every member of
`exts` is a dot followed by a dot-free extension: `str(n)` contains no
dot; `f"{n}.{ext}"` ends with `e` iff `e = "." + ext`. -/
def matchesAnyExt (nm : Name) (exts : List String) : Bool :=
  match nm with
  | .ofInt _ => false
  | .dotted _ ext => exts.any fun e => e = "." ++ ext
  | .raw s => exts.any fun e => e.toList.isSuffixOf s.toList

/-- Python `int(name.split('.')[0])`: the stem of `f"{n}.{ext}"` is
`str(n)`; the stem of a dot-free `str(n)` is itself; otherwise the
characters before the first dot are parsed. -/
def stemInt (nm : Name) : Option ℤ :=
  match nm with
  | .ofInt n => some n
  | .dotted n _ => some n
  | .raw s => pyIntChars (s.toList.takeWhile fun c => c ≠ '.')

/-- Python `name.split('.')[-1]` (the format key used by the statistics
code): for `f"{n}.{ext}"` it is `ext`. -/
def extLast (nm : Name) : String :=
  match nm with
  | .ofInt n => toString n
  | .dotted _ ext => ext
  | .raw s => ⟨(s.toList.reverse.takeWhile fun c => c ≠ '.').reverse⟩

/-! ## Filesystem trees

A directory's content is a list of `(name, node)` entries in listing
order; a node is a plain file (with its byte content) or a directory. -/

inductive FsNode where
  | file (data : List ℕ)
  | dir (entries : List (Name × FsNode))

/-- Entry with the given name, if any (`os.path.exists` / indexing). -/
def findEntry (es : List (Name × FsNode)) (nm : Name) : Option FsNode :=
  match es with
  | [] => none
  | (m, node) :: rest => if m = nm then some node else findEntry rest nm

/-- Replace or create the entry with the given name, applying `f` to the
existing node (if any); new entries are appended at the end. -/
def updEntry (es : List (Name × FsNode)) (nm : Name) (f : Option FsNode → FsNode) :
    List (Name × FsNode) :=
  match es with
  | [] => [(nm, f none)]
  | (m, node) :: rest =>
      if m = nm then (m, f (some node)) :: rest else (m, node) :: updEntry rest nm f

/-- Model of `os.makedirs(..., exist_ok=True)` restricted to one level: create the
directory if absent, keep whatever exists otherwise. -/
def mkdirEntry (es : List (Name × FsNode)) (nm : Name) : List (Name × FsNode) :=
  updEntry es nm fun old => old.getD (FsNode.dir [])

/-- Listing of the directory entry with the given name (empty when the
entry is absent or not a directory). -/
def getDirEntries (es : List (Name × FsNode)) (nm : Name) : List (Name × FsNode) :=
  match findEntry es nm with
  | some (.dir d) => d
  | _ => []

/-- Store back the listing of the directory entry with the given name. -/
def setDirEntries (es : List (Name × FsNode)) (nm : Name) (d : List (Name × FsNode)) :
    List (Name × FsNode) :=
  updEntry es nm fun _ => FsNode.dir d

/-- Write file `fn` (creating or overwriting) inside the directory entry
`d` of `es`. -/
def writeFileIn (es : List (Name × FsNode)) (d fn : Name) (data : List ℕ) :
    List (Name × FsNode) :=
  updEntry es d fun old =>
    match old with
    | some (FsNode.dir xs) => FsNode.dir (updEntry xs fn fun _ => FsNode.file data)
    | some other => other
    | none => FsNode.dir [(fn, FsNode.file data)]

/-! ## Tile writer (`src/tile_writer.py`, class `TileWriter`) -/

/-- A tile payload as received by the writer: `bytes`, `str`, or any
other Python object. -/
inductive TileData where
  | bytes (b : List ℕ)
  | str (s : String)
  | other
deriving DecidableEq

/-- UTF-8 encoding of a Python string (`tile_data.encode('utf-8')`). -/
def pyEncodeUtf8 (s : String) : List ℕ := s.toUTF8.toList.map UInt8.toNat

/-- A `(tile_column, tile_row, tile_data)` triple from `tiles_by_zoom`. -/
abbrev Tile := ℤ × ℤ × TileData

/-- Model of `TileWriter.supported_formats` (tile_writer.py lines 23-25): a dict
with the single key `'mbtiles'`. -/
def supported_formats : List (String × List String) :=
  [("mbtiles", [".pbf", ".jpg", ".jpeg", ".png"])]

/-- Python dict subscript `d[k]` made total: `none` models `KeyError`. -/
def pyDictGet (d : List (String × List String)) (k : String) : Option (List String) :=
  match d with
  | [] => none
  | (k2, v) :: rest => if k2 = k then some v else pyDictGet rest k

/-- Model of `TileWriter._get_extension_for_source_type` (tile_writer.py lines
113-118): `{'mbtiles': 'jpg'}.get(source_type, 'jpg')`. -/
def extFor (source_type : String) : String :=
  if source_type = "mbtiles" then "jpg" else "jpg"

/-- Model of `TileWriter._write_single_tile` (tile_writer.py lines 91-111) with
the disk write itself modelled as succeeding: `some written` is a `True`
return having written `written`; `none` is the `False` return for a
payload that is neither `bytes` nor `str`. -/
def writeSingleTile (tile_data : TileData) : Option (List ℕ) :=
  match tile_data with
  | .str s => some (pyEncodeUtf8 s)
  | .bytes b => some b
  | .other => none

/-- Inner loop of `TileWriter.write_tiles` over one zoom level's tiles
(tile_writer.py lines 62-77): per tile, `os.makedirs(x_dir)`, then
`_write_single_tile` incrementing `total_tiles` on `True` and
`failed_tiles` on `False`.  State: (zoom-directory listing, total, failed). -/
def writeZoomTiles (ext : String) (tiles : List Tile)
    (zes : List (Name × FsNode)) (total failed : ℕ) :
    List (Name × FsNode) × ℕ × ℕ :=
  match tiles with
  | [] => (zes, total, failed)
  | (col, row, d) :: rest =>
      let z1 := mkdirEntry zes (Name.ofInt col)
      match writeSingleTile d with
      | some bs =>
          writeZoomTiles ext rest
            (writeFileIn z1 (Name.ofInt col) (Name.dotted row ext) bs) (total + 1) failed
      | none => writeZoomTiles ext rest z1 total (failed + 1)

/-- Outer loop of `TileWriter.write_tiles` over `tiles_by_zoom.items()`
(tile_writer.py lines 50-77): a zoom level with an empty tile list is
skipped with a warning before its directory is created; otherwise the
zoom directory is created and the inner loop runs.  State:
(region-directory listing, total, failed). -/
def writeTilesLoop (ext : String) (l : List (ℤ × List Tile))
    (st : List (Name × FsNode) × ℕ × ℕ) : List (Name × FsNode) × ℕ × ℕ :=
  match l with
  | [] => st
  | (zoom, tiles) :: rest =>
      if tiles.isEmpty then writeTilesLoop ext rest st
      else
        let es1 := mkdirEntry st.1 (Name.ofInt zoom)
        let r := writeZoomTiles ext tiles (getDirEntries es1 (Name.ofInt zoom)) st.2.1 st.2.2
        writeTilesLoop ext rest (setDirEntries es1 (Name.ofInt zoom) r.1, r.2.1, r.2.2)

/-- The per-zoom JSON document written by `create_tile_index`:
`{'zoom': ..., 'tiles': [...], 'total_tiles': len(tiles)}`. -/
structure TileIndexDoc where
  zoom : ℤ
  tiles : List (ℤ × ℤ)
  total_tiles : ℕ
deriving DecidableEq

/-- The extension list `supported_formats['mbtiles']` used by
`create_tile_index` (the lookup always succeeds). -/
def mbtilesExts : List String := (pyDictGet supported_formats "mbtiles").getD []

/-- File scan of one column directory in `create_tile_index`
(tile_writer.py lines 153-157): append `(x, int(stem))` for each name
matching a supported extension; a `ValueError` on the stem aborts the
remainder of this directory's listing (the `except ValueError` sits at
the per-column level), keeping what was already appended. -/
def xDirTiles (x : ℤ) (files : List Name) : List (ℤ × ℤ) :=
  match files with
  | [] => []
  | f :: rest =>
      if matchesAnyExt f mbtilesExts then
        match stemInt f with
        | some y => (x, y) :: xDirTiles x rest
        | none => []
      else xDirTiles x rest

/-- Contribution of one zoom-directory entry to the index scan
(tile_writer.py lines 148-160): non-directories are ignored; a column
directory whose name fails `int(...)` is skipped with a warning
(`except ValueError: continue`); otherwise its files are scanned. -/
def entryTiles (e : Name × FsNode) : List (ℤ × ℤ) :=
  match e.2 with
  | .file _ => []
  | .dir fls =>
      match pyIntName e.1 with
      | none => []
      | some x => xDirTiles x (fls.map Prod.fst)

/-- Full scan of a zoom directory's listing in `create_tile_index`. -/
def zoomTiles (es : List (Name × FsNode)) : List (ℤ × ℤ) :=
  es.flatMap entryTiles

/-- Index construction for one requested zoom level (tile_writer.py
lines 142-169): skip if the zoom directory does not exist; otherwise
scan it and write `tiles.json` only if at least one tile was found.
The written document is represented as the `some` value. -/
def indexOne (region : List (Name × FsNode)) (z : ℤ) : Option TileIndexDoc :=
  match findEntry region (Name.ofInt z) with
  | some (.dir es) =>
      let tiles := zoomTiles es
      if tiles.isEmpty then none else some ⟨z, tiles, tiles.length⟩
  | _ => none

/-- Model of `TileWriter.create_tile_index` (tile_writer.py lines 137-172) over a
region-directory listing, returning the per-zoom index documents. -/
def createTileIndex (region : List (Name × FsNode)) (zoom_levels : List ℤ) :
    List (ℤ × Option TileIndexDoc) :=
  zoom_levels.map fun z => (z, indexOne region z)

/-- Model of `TileWriter.write_tiles` (tile_writer.py lines 40-89): create the
region directory, run the per-zoom loop, then `create_tile_index` over
all requested zoom levels, and return `total_tiles`.  Result:
(final region listing, index documents, returned count). -/
def write_tiles (tilesByZoom : List (ℤ × List Tile)) (source_type : String)
    (fs0 : List (Name × FsNode)) :
    List (Name × FsNode) × List (ℤ × Option TileIndexDoc) × ℕ :=
  let r := writeTilesLoop (extFor source_type) tilesByZoom (fs0, 0, 0)
  (r.1, createTileIndex r.1 (tilesByZoom.map Prod.fst), r.2.1)

/-! ## Statistics (`TileWriter.get_tile_statistics` and
`TileWriter._get_zoom_statistics`) -/

/-- The per-zoom statistics dict built by `_get_zoom_statistics`
(tile_writer.py lines 213-218). -/
structure ZoomStats where
  tiles : ℕ
  formats : List (String × ℕ)
  x_min : Option ℤ
  x_max : Option ℤ
  y_min : Option ℤ
  y_max : Option ℤ
deriving DecidableEq

/-- Increment a format counter dict (tile_writer.py lines 245-247). -/
def bumpFormat (fmts : List (String × ℕ)) (k : String) : List (String × ℕ) :=
  match fmts with
  | [] => [(k, 1)]
  | (k2, v) :: rest => if k2 = k then (k2, v + 1) :: rest else (k2, v) :: bumpFormat rest k

/-- File loop of `_get_zoom_statistics` (tile_writer.py lines 232-247).
The extension list is `supported_formats['raster'] +
supported_formats['vector']`; either missing key raises `KeyError`,
returned as `none` (as is a `ValueError` from `int(...)`); both escape to
the handler at the function level. -/
def zoomStatFiles (x : ℤ) (files : List Name) (st : ZoomStats) : Option ZoomStats :=
  match files with
  | [] => some st
  | f :: rest =>
      match pyDictGet supported_formats "raster", pyDictGet supported_formats "vector" with
      | some rl, some vl =>
          if matchesAnyExt f (rl ++ vl) then
            match stemInt f with
            | some y =>
                let st1 : ZoomStats :=
                  { st with
                    tiles := st.tiles + 1
                    formats := bumpFormat st.formats (extLast f)
                    y_min := some (match st.y_min with
                                   | none => y
                                   | some m => if y < m then y else m)
                    y_max := some (match st.y_max with
                                   | none => y
                                   | some m => if m < y then y else m) }
                zoomStatFiles x rest st1
            | none => none
          else zoomStatFiles x rest st
      | _, _ => none

/-- Column-directory loop of `_get_zoom_statistics` (tile_writer.py
lines 221-247): `x = int(x_dir)` is not guarded per entry, so a
`ValueError` (like any exception from the file loop) falls through to the
function-level `except`, which returns the statistics accumulated so far. -/
def zoomStatDirs (entries : List (Name × FsNode)) (st : ZoomStats) : ZoomStats :=
  match entries with
  | [] => st
  | (nm, node) :: rest =>
      match node with
      | .file _ => zoomStatDirs rest st
      | .dir fls =>
          match pyIntName nm with
          | none => st
          | some x =>
              let st1 : ZoomStats :=
                { st with
                  x_min := some (match st.x_min with
                                 | none => x
                                 | some m => if x < m then x else m)
                  x_max := some (match st.x_max with
                                 | none => x
                                 | some m => if m < x then x else m) }
              match zoomStatFiles x (fls.map Prod.fst) st1 with
              | some st2 => zoomStatDirs rest st2
              | none => st1

/-- Model of `TileWriter._get_zoom_statistics` (tile_writer.py lines 211-252). -/
def getZoomStatistics (entries : List (Name × FsNode)) : ZoomStats :=
  zoomStatDirs entries ⟨0, [], none, none, none, none⟩

/-- The region-level statistics dict built by `get_tile_statistics`
(tile_writer.py lines 183-189). -/
structure RegionStats where
  total_zoom_levels : ℕ
  total_tiles : ℕ
  zoom_levels : List (ℤ × ZoomStats)
  file_formats : List (String × ℕ)
deriving DecidableEq

/-- Merge one zoom's format counters into the region totals
(tile_writer.py lines 202-203). -/
def mergeFormats (acc : List (String × ℕ)) (fmts : List (String × ℕ)) :
    List (String × ℕ) :=
  match fmts with
  | [] => acc
  | (k, v) :: rest =>
      mergeFormats
        (match acc with
         | [] => [(k, v)]
         | _ => addFormat acc k v) rest
where
  /-- Model of `stats['file_formats'].get(fmt, 0) + count` then store. -/
  addFormat : List (String × ℕ) → String → ℕ → List (String × ℕ)
  | [], k, v => [(k, v)]
  | (k2, v2) :: rest, k, v =>
      if k2 = k then (k2, v2 + v) :: rest else (k2, v2) :: addFormat rest k v

/-- Model of `TileWriter.get_tile_statistics` (tile_writer.py lines 176-209) over
an existing region-directory listing: each entry that is a directory with
an `isdigit()` name contributes its zoom statistics. -/
def get_tile_statistics (region : List (Name × FsNode)) : RegionStats :=
  region.foldl
    (fun stats e =>
      match e.2 with
      | .file _ => stats
      | .dir fls =>
          if pyIsdigitName e.1 then
            match pyIntName e.1 with
            | none => stats
            | some zoom =>
                let zs := getZoomStatistics fls
                { total_zoom_levels := stats.total_zoom_levels + 1
                  total_tiles := stats.total_tiles + zs.tiles
                  zoom_levels := stats.zoom_levels ++ [(zoom, zs)]
                  file_formats := mergeFormats stats.file_formats zs.formats }
          else stats)
    ⟨0, 0, [], []⟩

/-! ## Counting helpers for the writer invariants -/

/-- Tiles whose payload `_write_single_tile` accepts. -/
def tileOk (t : Tile) : Bool := (writeSingleTile t.2.2).isSome

/-- Number of attempted tiles: every tile of every zoom level that enters
the per-tile loop (empty zoom levels are skipped, but contribute zero
tiles either way). -/
def numAttempted (l : List (ℤ × List Tile)) : ℕ :=
  (l.map fun p => p.2.length).sum

/-- Number of tiles counted as successes. -/
def numSuccesses (l : List (ℤ × List Tile)) : ℕ :=
  (l.map fun p => (p.2.filter tileOk).length).sum

/-- Number of tiles counted as failures. -/
def numFailures (l : List (ℤ × List Tile)) : ℕ :=
  (l.map fun p => (p.2.filter fun t => !tileOk t).length).sum

end TileMap

namespace TileMap

/-! ## Helper lemmas: writer counters -/

theorem filter_ok_add_filter_not (tiles : List Tile) :
    (tiles.filter tileOk).length + (tiles.filter fun x => !tileOk x).length = tiles.length := by
  induction tiles with
  | nil => rfl
  | cons hd tl ih =>
      by_cases h : tileOk hd = true <;> simp [List.filter, h] <;> omega

theorem writeZoomTiles_counts (ext : String) (tiles : List Tile) :
    ∀ zes t f,
      (writeZoomTiles ext tiles zes t f).2.1 = t + (tiles.filter tileOk).length ∧
      (writeZoomTiles ext tiles zes t f).2.2 = f + (tiles.filter fun x => !tileOk x).length := by
  induction tiles with
  | nil => intro zes t f; simp [writeZoomTiles]
  | cons hd tl ih =>
      intro zes t f
      obtain ⟨col, row, d⟩ := hd
      have hok : tileOk (col, row, d) = (writeSingleTile d).isSome := rfl
      cases h : writeSingleTile d with
      | none =>
          have h1 := ih (mkdirEntry zes (Name.ofInt col)) t (f + 1)
          simp [writeZoomTiles, h, hok, h1.1, h1.2, List.filter]
          omega
      | some bs =>
          have h1 := ih (writeFileIn (mkdirEntry zes (Name.ofInt col)) (Name.ofInt col)
            (Name.dotted row ext) bs) (t + 1) f
          simp [writeZoomTiles, h, hok, h1.1, h1.2, List.filter]
          omega

theorem writeTilesLoop_counts (ext : String) (l : List (ℤ × List Tile)) :
    ∀ es t f,
      (writeTilesLoop ext l (es, t, f)).2.1 = t + numSuccesses l ∧
      (writeTilesLoop ext l (es, t, f)).2.2 = f + numFailures l := by
  induction l with
  | nil => intro es t f; simp [writeTilesLoop, numSuccesses, numFailures]
  | cons hd tl ih =>
      intro es t f
      obtain ⟨zoom, tiles⟩ := hd
      by_cases he : tiles.isEmpty
      · have htiles : tiles = [] := by simpa [List.isEmpty_iff] using he
        have h1 := ih es t f
        simp [writeTilesLoop, he, htiles, numSuccesses, numFailures, h1.1, h1.2]
      · have he' : tiles.isEmpty = false := by simpa using he
        have h2 := writeZoomTiles_counts ext tiles
          (getDirEntries (mkdirEntry es (Name.ofInt zoom)) (Name.ofInt zoom)) t f
        simp only [writeTilesLoop, he', Bool.false_eq_true, if_false]
        rw [h2.1, h2.2]
        have h3 := ih (setDirEntries (mkdirEntry es (Name.ofInt zoom)) (Name.ofInt zoom)
            (writeZoomTiles ext tiles
              (getDirEntries (mkdirEntry es (Name.ofInt zoom)) (Name.ofInt zoom)) t f).1)
          (t + (tiles.filter tileOk).length)
          (f + (tiles.filter fun x => !tileOk x).length)
        rw [h3.1, h3.2]
        simp [numSuccesses, numFailures]
        constructor <;> omega

theorem numAttempted_eq (l : List (ℤ × List Tile)) :
    numSuccesses l + numFailures l = numAttempted l := by
  induction l with
  | nil => rfl
  | cons hd tl ih =>
      simp [numSuccesses, numFailures, numAttempted] at ih ⊢
      have := filter_ok_add_filter_not hd.2
      omega

/-- C1: every call to `write_tiles` has `success + failure` equal to the
number of attempted tiles, each attempted tile lands in exactly one of
the two counters, and the returned value is the success counter. -/
theorem C1_write_counters (l : List (ℤ × List Tile)) (source_type : String)
    (fs0 : List (Name × FsNode)) :
    (writeTilesLoop (extFor source_type) l (fs0, 0, 0)).2.1 +
        (writeTilesLoop (extFor source_type) l (fs0, 0, 0)).2.2 = numAttempted l ∧
    (writeTilesLoop (extFor source_type) l (fs0, 0, 0)).2.1 = numSuccesses l ∧
    (writeTilesLoop (extFor source_type) l (fs0, 0, 0)).2.2 = numFailures l ∧
    (write_tiles l source_type fs0).2.2 = numSuccesses l := by
  have h := writeTilesLoop_counts (extFor source_type) l fs0 0 0
  have ha := numAttempted_eq l
  refine ⟨by omega, by omega, by omega, ?_⟩
  simpa [write_tiles] using h.1

/-! ## Helper lemmas: filesystem entries -/

theorem findEntry_updEntry_ne (es : List (Name × FsNode)) (m nm : Name)
    (f : Option FsNode → FsNode) (h : m ≠ nm) :
    findEntry (updEntry es m f) nm = findEntry es nm := by
  have h' : ¬ nm = m := fun e => h e.symm
  induction es with
  | nil => simp [updEntry, findEntry, h]
  | cons hd tl ih =>
      obtain ⟨k, node⟩ := hd
      by_cases hk : k = m
      · subst hk
        simp [updEntry, findEntry, h]
      · by_cases hk2 : k = nm <;> simp [updEntry, findEntry, hk, hk2, h', ih]

theorem writeTilesLoop_preserves_absent (ext : String) (l : List (ℤ × List Tile)) (z : ℤ)
    (hz : ∀ p ∈ l, p.2.isEmpty = false → p.1 ≠ z) :
    ∀ es t f, findEntry es (Name.ofInt z) = none →
      findEntry (writeTilesLoop ext l (es, t, f)).1 (Name.ofInt z) = none := by
  induction l with
  | nil => intro es t f h; simpa [writeTilesLoop] using h
  | cons hd tl ih =>
      intro es t f h
      obtain ⟨zoom, tiles⟩ := hd
      have hz' : ∀ p ∈ tl, p.2.isEmpty = false → p.1 ≠ z := fun p hp => hz p (by simp [hp])
      by_cases he : tiles.isEmpty
      · simpa [writeTilesLoop, he] using ih hz' es t f h
      · have hzz : zoom ≠ z := hz (zoom, tiles) (by simp) (by simpa using he)
        have hname : Name.ofInt zoom ≠ Name.ofInt z := by simpa using hzz
        have h1 : findEntry (mkdirEntry es (Name.ofInt zoom)) (Name.ofInt z) = none := by
          simpa [mkdirEntry, findEntry_updEntry_ne _ _ _ _ hname] using h
        have h2 : findEntry (setDirEntries (mkdirEntry es (Name.ofInt zoom)) (Name.ofInt zoom)
            (writeZoomTiles ext tiles
              (getDirEntries (mkdirEntry es (Name.ofInt zoom)) (Name.ofInt zoom)) t f).1)
            (Name.ofInt z) = none := by
          simpa [setDirEntries, findEntry_updEntry_ne _ _ _ _ hname] using h1
        simpa [writeTilesLoop, he] using ih hz' _ _ _ h2

theorem writeTilesLoop_skip_empty (ext : String) (l : List (ℤ × List Tile)) :
    ∀ st, writeTilesLoop ext l st = writeTilesLoop ext (l.filter fun p => !p.2.isEmpty) st := by
  induction l with
  | nil => intro st; rfl
  | cons hd tl ih =>
      intro st
      obtain ⟨zoom, tiles⟩ := hd
      by_cases he : tiles.isEmpty
      · simp [writeTilesLoop, he, List.filter, ih]
      · have he' : tiles.isEmpty = false := by simpa using he
        simp [writeTilesLoop, he', List.filter, ih]

/-- C9: a requested zoom level with an empty tile list is skipped: its
zoom directory is never created (assuming it was absent beforehand and
that dict keys are unique), `create_tile_index` produces no `tiles.json`
document for it, and both the resulting on-disk state and the returned
total are identical to those of the request with all empty levels
removed — so every other zoom level's on-disk state is written exactly
as usual. -/
theorem C9_empty_zoom (l : List (ℤ × List Tile)) (z : ℤ) (source_type : String)
    (fs0 : List (Name × FsNode)) (hmem : (z, ([] : List Tile)) ∈ l)
    (hkeys : (l.map Prod.fst).Nodup)
    (hfs0 : findEntry fs0 (Name.ofInt z) = none) :
    findEntry (write_tiles l source_type fs0).1 (Name.ofInt z) = none ∧
    (z, (none : Option TileIndexDoc)) ∈ (write_tiles l source_type fs0).2.1 ∧
    (write_tiles l source_type fs0).1 =
      (write_tiles (l.filter fun p => !p.2.isEmpty) source_type fs0).1 ∧
    (write_tiles l source_type fs0).2.2 =
      (write_tiles (l.filter fun p => !p.2.isEmpty) source_type fs0).2.2 := by
  have hz : ∀ p ∈ l, p.2.isEmpty = false → p.1 ≠ z := by
    intro p hp hpe hp1
    have : p = (z, ([] : List Tile)) :=
      List.inj_on_of_nodup_map hkeys hp hmem (by simpa using hp1)
    rw [this] at hpe
    simp at hpe
  have habs : findEntry (writeTilesLoop (extFor source_type) l (fs0, 0, 0)).1
      (Name.ofInt z) = none :=
    writeTilesLoop_preserves_absent (extFor source_type) l z hz fs0 0 0 hfs0
  refine ⟨by simpa [write_tiles] using habs, ?_, ?_, ?_⟩
  · have hzmem : z ∈ l.map Prod.fst := List.mem_map.mpr ⟨(z, []), hmem, rfl⟩
    have hidx : indexOne (writeTilesLoop (extFor source_type) l (fs0, 0, 0)).1 z = none := by
      unfold indexOne
      rw [habs]
    have hmm : ((z, indexOne (writeTilesLoop (extFor source_type) l (fs0, 0, 0)).1 z) :
        ℤ × Option TileIndexDoc) ∈
          createTileIndex (writeTilesLoop (extFor source_type) l (fs0, 0, 0)).1
            (l.map Prod.fst) :=
      List.mem_map.mpr ⟨z, hzmem, rfl⟩
    rw [hidx] at hmm
    simpa [write_tiles] using hmm
  · simp [write_tiles, ← writeTilesLoop_skip_empty]
  · simp [write_tiles, ← writeTilesLoop_skip_empty]

/-! ## Helper lemmas: index scan -/

theorem xDirTiles_abort (x : ℤ) (f : Name) (hm : matchesAnyExt f mbtilesExts = true)
    (hs : stemInt f = none) :
    ∀ gs fs, xDirTiles x (gs ++ f :: fs) = xDirTiles x (gs ++ [f]) := by
  intro gs
  induction gs with
  | nil => intro fs; simp [xDirTiles, hm, hs]
  | cons g gs' ih =>
      intro fs
      by_cases hg : matchesAnyExt g mbtilesExts = true
      · cases hgs : stemInt g <;> simp [xDirTiles, hg, hgs, ih]
      · simp [xDirTiles, hg, ih]

/-- C8 (amended): during `create_tile_index`, a column directory whose
name is not an integer is individually skipped and the scan continues
with the other directories; a tile file whose stem is not an integer
aborts the remainder of its own column directory's listing only (entries
already collected there, and entries of other directories, are kept); the
scan never aborts as a whole; and the index document exists for a zoom
directory exactly when its scan found at least one tile, in which case it
lists exactly the scanned tiles with `total_tiles` equal to their number. -/
theorem C8_scan_behavior :
    (∀ nm fls rest, pyIntName nm = none →
        zoomTiles ((nm, FsNode.dir fls) :: rest) = zoomTiles rest) ∧
    (∀ e es, zoomTiles (e :: es) = entryTiles e ++ zoomTiles es) ∧
    (∀ x f gs fs, matchesAnyExt f mbtilesExts = true → stemInt f = none →
        xDirTiles x (gs ++ f :: fs) = xDirTiles x (gs ++ [f])) ∧
    (∀ region z, (indexOne region z = none ↔
        zoomTiles (getDirEntries region (Name.ofInt z)) = []) ∧
      ∀ doc, indexOne region z = some doc →
        doc.zoom = z ∧ doc.tiles = zoomTiles (getDirEntries region (Name.ofInt z)) ∧
          doc.total_tiles = doc.tiles.length) := by
  refine ⟨?_, ?_, ?_, ?_⟩
  · intro nm fls rest h
    simp [zoomTiles, entryTiles, h]
  · intro e es
    simp [zoomTiles]
  · intro x f gs fs hm hs
    exact xDirTiles_abort x f hm hs gs fs
  · intro region z
    cases hf : findEntry region (Name.ofInt z) with
    | none =>
        constructor
        · simp [indexOne, hf, getDirEntries, zoomTiles]
        · intro doc hdoc; simp [indexOne, hf] at hdoc
    | some node =>
        cases node with
        | file data =>
            constructor
            · simp [indexOne, hf, getDirEntries, zoomTiles]
            · intro doc hdoc; simp [indexOne, hf] at hdoc
        | dir es =>
            constructor
            · by_cases he : (zoomTiles es).isEmpty
              · have : zoomTiles es = [] := by simpa [List.isEmpty_iff] using he
                simp [indexOne, hf, getDirEntries, this]
              · have : zoomTiles es ≠ [] := by simpa [List.isEmpty_iff] using he
                simp [indexOne, hf, getDirEntries, he, this]
            · intro doc hdoc
              by_cases he : (zoomTiles es).isEmpty
              · simp [indexOne, hf, he] at hdoc
              · simp [indexOne, hf, he] at hdoc
                simp [getDirEntries, hf, ← hdoc]

/-- C8 witness: the amended behavior at concrete inputs. -/
theorem C8_scan_behavior_witness :
    zoomTiles ((Name.raw "xx", FsNode.dir [(Name.dotted 7 "png", FsNode.file [])]) ::
        [(Name.ofInt 4, FsNode.dir [(Name.dotted 9 "jpg", FsNode.file [])])]) =
      zoomTiles [(Name.ofInt 4, FsNode.dir [(Name.dotted 9 "jpg", FsNode.file [])])] :=
  C8_scan_behavior.1 (Name.raw "xx") _ _ (by decide)

/-- C8 counterexample: the claim as stated is false.  In a zoom directory
whose column directory `10` lists the malformed name `abc.png` before the
well-formed tile file `7.png`, the well-formed entry `(10, 7)` does not
appear in the resulting index: no index document is produced at all. -/
theorem C8_malformed_file_aborts_dir :
    createTileIndex
        [(Name.ofInt 5, FsNode.dir [(Name.ofInt 10, FsNode.dir
          [(Name.raw "abc.png", FsNode.file []), (Name.dotted 7 "png", FsNode.file [1])])])]
        [5] = [(5, none)] ∧
    xDirTiles 10 [Name.raw "abc.png", Name.dotted 7 "png"] = [] ∧
    xDirTiles 10 [Name.dotted 7 "png"] = [(10, 7)] := by
  refine ⟨by decide, by decide, by decide⟩

/-- C7: any I/O or query failure inside `MBTilesExtractor.extract_tiles`
is absorbed (the function still returns normally) and the returned tile
list for that zoom level is empty. -/
theorem C7_error_empty (zoom : ℕ) (err : String) :
    extract_tiles zoom (Except.error err) = [] := rfl

/-- C10: `_write_single_tile` accepts a `str` payload, encoding it as
UTF-8 and counting it as a success; a payload is rejected as an
invalid-type failure exactly when it is neither `bytes` nor `str`. -/
theorem C10_str_payload :
    (∀ s, writeSingleTile (TileData.str s) = some (pyEncodeUtf8 s)) ∧
    (∀ d, writeSingleTile d = none ↔ d = TileData.other) := by
  refine ⟨fun s => rfl, fun d => ?_⟩
  cases d <;> simp [writeSingleTile]

/-- C3: the top/bottom row conversion `r ↦ (2^zoom - 1) - r` is an
involution on `[0, 2^zoom - 1]` for every zoom in `[0, 22]`: applying it
twice is the identity and the image stays in range. -/
theorem C3_involution (zoom : ℕ) (r : ℤ) (hzoom : zoom ≤ 22) (h0 : 0 ≤ r)
    (h1 : r ≤ 2 ^ zoom - 1) :
    toBottom zoom (toBottom zoom r) = r ∧
    0 ≤ toBottom zoom r ∧ toBottom zoom r ≤ 2 ^ zoom - 1 := by
  have hpow : (1 : ℤ) ≤ 2 ^ zoom := one_le_pow₀ (by norm_num)
  unfold toBottom
  constructor
  · ring
  · omega

/-- C3 witness at `zoom = 3`, `r = 5`. -/
theorem C3_involution_witness :
    (3 : ℕ) ≤ 22 ∧ (0 : ℤ) ≤ 5 ∧ (5 : ℤ) ≤ 2 ^ 3 - 1 ∧
    (toBottom 3 (toBottom 3 5) = 5 ∧ 0 ≤ toBottom 3 5 ∧ toBottom 3 5 ≤ 2 ^ 3 - 1) :=
  ⟨by norm_num, by norm_num, by norm_num, C3_involution 3 5 (by norm_num) (by norm_num) (by norm_num)⟩

/-- C9 witness: request with empty zoom 3 and one valid tile at zoom 4 on
an empty initial filesystem. -/
theorem C9_empty_zoom_witness :
    ((3 : ℤ), ([] : List Tile)) ∈ [((3 : ℤ), ([] : List Tile)), (4, [(1, 2, TileData.bytes [7])])] ∧
    (([((3 : ℤ), ([] : List Tile)), (4, [(1, 2, TileData.bytes [7])])].map Prod.fst).Nodup) ∧
    findEntry [] (Name.ofInt 3) = none ∧
    (findEntry (write_tiles [((3 : ℤ), ([] : List Tile)), (4, [(1, 2, TileData.bytes [7])])]
        "mbtiles" []).1 (Name.ofInt 3) = none ∧
      ((3 : ℤ), (none : Option TileIndexDoc)) ∈
        (write_tiles [((3 : ℤ), ([] : List Tile)), (4, [(1, 2, TileData.bytes [7])])]
          "mbtiles" []).2.1 ∧
      (write_tiles [((3 : ℤ), ([] : List Tile)), (4, [(1, 2, TileData.bytes [7])])]
          "mbtiles" []).1 =
        (write_tiles ([((3 : ℤ), ([] : List Tile)), (4, [(1, 2, TileData.bytes [7])])].filter
          fun p => !p.2.isEmpty) "mbtiles" []).1 ∧
      (write_tiles [((3 : ℤ), ([] : List Tile)), (4, [(1, 2, TileData.bytes [7])])]
          "mbtiles" []).2.2 =
        (write_tiles ([((3 : ℤ), ([] : List Tile)), (4, [(1, 2, TileData.bytes [7])])].filter
          fun p => !p.2.isEmpty) "mbtiles" []).2.2) :=
  ⟨by decide, by decide, rfl,
    C9_empty_zoom _ 3 "mbtiles" [] (by decide) (by decide) rfl⟩

/-- C2 (code bug): on a region directory containing zoom directory `5`
with column directory `10` holding the tile file `20.jpg`, the statistics
scan hits `KeyError('raster')` (the `supported_formats` dict only has the
key `'mbtiles'`), the per-zoom scan returns its partial state, and the
reported statistics claim zero tiles and no formats even though one tile
file is present; only `x_range` was updated before the failure. -/
theorem C2_stats_keyerror :
    get_tile_statistics
        [(Name.ofInt 5, FsNode.dir [(Name.ofInt 10, FsNode.dir
          [(Name.dotted 20 "jpg", FsNode.file [0])])])] =
      ⟨1, 0, [(5, ⟨0, [], some 10, some 10, none, none⟩)], []⟩ ∧
    pyDictGet supported_formats "raster" = none ∧
    matchesAnyExt (Name.dotted 20 "jpg") mbtilesExts = true := by
  refine ⟨by decide, by decide, by decide⟩

end TileMap

namespace TileMap

/-! ## Helper lemmas: truncation toward zero -/

theorem pyTrunc_of_nonneg {x : ℝ} (h : 0 ≤ x) : pyTrunc x = ⌊x⌋ := if_pos h

theorem pyTrunc_of_neg {x : ℝ} (h : x < 0) : pyTrunc x = ⌈x⌉ := if_neg (not_le.mpr h)

theorem pyTrunc_mono {x y : ℝ} (h : x ≤ y) : pyTrunc x ≤ pyTrunc y := by
  unfold pyTrunc
  by_cases hx : 0 ≤ x
  · rw [if_pos hx, if_pos (hx.trans h)]
    exact Int.floor_mono h
  · rw [if_neg hx]
    by_cases hy : 0 ≤ y
    · rw [if_pos hy]
      have h1 : ⌈x⌉ ≤ 0 := Int.ceil_le.mpr (by push_cast; linarith)
      have h2 : (0 : ℤ) ≤ ⌊y⌋ := Int.le_floor.mpr (by push_cast; linarith)
      omega
    · rw [if_neg hy]
      exact Int.ceil_mono h

/-! ## Helper lemmas: monotonicity of the Mercator row expression -/

theorem arsinh_tan_lt_arsinh_tan {lat1 lat2 : ℝ} (h1 : -90 < lat1) (h2 : lat2 < 90)
    (h : lat1 < lat2) :
    Real.arsinh (Real.tan (lat1 * Real.pi / 180)) <
      Real.arsinh (Real.tan (lat2 * Real.pi / 180)) := by
  have hc : (0 : ℝ) < Real.pi / 180 := by positivity
  have e1 : -(Real.pi / 2) < lat1 * Real.pi / 180 := by
    have h' := mul_lt_mul_of_pos_right h1 hc
    calc -(Real.pi / 2) = -90 * (Real.pi / 180) := by ring
      _ < lat1 * (Real.pi / 180) := h'
      _ = lat1 * Real.pi / 180 := by ring
  have e2 : lat2 * Real.pi / 180 < Real.pi / 2 := by
    have h' := mul_lt_mul_of_pos_right h2 hc
    calc lat2 * Real.pi / 180 = lat2 * (Real.pi / 180) := by ring
      _ < 90 * (Real.pi / 180) := h'
      _ = Real.pi / 2 := by ring
  have e12 : lat1 * Real.pi / 180 < lat2 * Real.pi / 180 := by
    have h' := mul_lt_mul_of_pos_right h hc
    calc lat1 * Real.pi / 180 = lat1 * (Real.pi / 180) := by ring
      _ < lat2 * (Real.pi / 180) := h'
      _ = lat2 * Real.pi / 180 := by ring
  exact Real.arsinh_lt_arsinh.mpr (Real.tan_lt_tan_of_lt_of_lt_pi_div_two e1 e2 e12)

theorem arsinh_tan_le_arsinh_tan {lat1 lat2 : ℝ} (h1 : -90 < lat1) (h2 : lat2 < 90)
    (h : lat1 ≤ lat2) :
    Real.arsinh (Real.tan (lat1 * Real.pi / 180)) ≤
      Real.arsinh (Real.tan (lat2 * Real.pi / 180)) := by
  rcases eq_or_lt_of_le h with rfl | hlt
  · exact le_refl _
  · exact (arsinh_tan_lt_arsinh_tan h1 h2 hlt).le

/-- C6 counterexample: the claim as stated is false.  For the reversed
bounding box `[90, 0, -90, 0]` (west edge east of the east edge) at
zoom 1, `bbox_to_tile_range` returns `min_col = 1 > 0 = max_col`. -/
theorem C6_range_unordered :
    ¬ ((bbox_to_tile_range ⟨90, 0, -90, 0⟩ 1).min_x ≤
        (bbox_to_tile_range ⟨90, 0, -90, 0⟩ 1).max_x) := by
  have h1 : (bbox_to_tile_range ⟨90, 0, -90, 0⟩ 1).min_x = 1 := by
    show pyTrunc (((90 : ℝ) + 180) / 360 * 2 ^ (1 : ℕ)) = 1
    rw [pyTrunc_of_nonneg (by norm_num)]
    rw [show ((90 : ℝ) + 180) / 360 * 2 ^ (1 : ℕ) = 3 / 2 by norm_num]
    rw [Int.floor_eq_iff]
    norm_num
  have h2 : (bbox_to_tile_range ⟨90, 0, -90, 0⟩ 1).max_x = 0 := by
    show pyTrunc (((-90 : ℝ) + 180) / 360 * 2 ^ (1 : ℕ)) = 0
    rw [pyTrunc_of_nonneg (by norm_num)]
    rw [show ((-90 : ℝ) + 180) / 360 * 2 ^ (1 : ℕ) = 1 / 2 by norm_num]
    rw [Int.floor_eq_zero_iff]
    constructor <;> norm_num
  rw [h1, h2]
  norm_num

/-- C6 (amended): for every bounding box that is sorted
(`min_lon ≤ max_lon`, `min_lat ≤ max_lat`) with latitudes strictly inside
`(-90, 90)`, and every zoom in `[0, 22]`, both `bbox_to_tile_range` and
`bbox_to_tile_range_tms` return ranges with `min_col ≤ max_col` and
`min_row ≤ max_row`.  (For unsorted boxes this fails, see the
counterexample.) -/
theorem C6_range_sorted (b : Bbox) (zoom : ℕ) (hzoom : zoom ≤ 22)
    (hlon : b.min_lon ≤ b.max_lon) (hlat : b.min_lat ≤ b.max_lat)
    (hlat1 : -90 < b.min_lat) (hlat2 : b.max_lat < 90) :
    ((bbox_to_tile_range b zoom).min_x ≤ (bbox_to_tile_range b zoom).max_x ∧
     (bbox_to_tile_range b zoom).min_y ≤ (bbox_to_tile_range b zoom).max_y) ∧
    ((bbox_to_tile_range_tms b zoom).min_x ≤ (bbox_to_tile_range_tms b zoom).max_x ∧
     (bbox_to_tile_range_tms b zoom).min_y ≤ (bbox_to_tile_range_tms b zoom).max_y) := by
  clear hzoom
  have hn : (0 : ℝ) < 2 ^ zoom := by positivity
  have hcol : pyTrunc ((b.min_lon + 180) / 360 * 2 ^ zoom) ≤
      pyTrunc ((b.max_lon + 180) / 360 * 2 ^ zoom) := by
    apply pyTrunc_mono
    have h1 : (b.min_lon + 180) / 360 ≤ (b.max_lon + 180) / 360 := by linarith
    exact mul_le_mul_of_nonneg_right h1 hn.le
  have hA := arsinh_tan_le_arsinh_tan hlat1 hlat2 hlat
  have hrow : pyTrunc ((1 - Real.arsinh (Real.tan (b.max_lat * Real.pi / 180)) / Real.pi)
        / 2 * 2 ^ zoom) ≤
      pyTrunc ((1 - Real.arsinh (Real.tan (b.min_lat * Real.pi / 180)) / Real.pi)
        / 2 * 2 ^ zoom) := by
    apply pyTrunc_mono
    have hpi : (0 : ℝ) < Real.pi := Real.pi_pos
    have h1 : Real.arsinh (Real.tan (b.min_lat * Real.pi / 180)) / Real.pi ≤
        Real.arsinh (Real.tan (b.max_lat * Real.pi / 180)) / Real.pi :=
      (div_le_div_right hpi).mpr hA
    have h2 : (1 - Real.arsinh (Real.tan (b.max_lat * Real.pi / 180)) / Real.pi) / 2 ≤
        (1 - Real.arsinh (Real.tan (b.min_lat * Real.pi / 180)) / Real.pi) / 2 := by
      linarith
    exact mul_le_mul_of_nonneg_right h2 hn.le
  refine ⟨⟨?_, ?_⟩, ⟨?_, ?_⟩⟩
  · exact hcol
  · exact hrow
  · exact hcol
  · show toBottom zoom (pyTrunc ((1 - Real.arsinh (Real.tan (b.min_lat * Real.pi / 180))
        / Real.pi) / 2 * 2 ^ zoom)) ≤
      toBottom zoom (pyTrunc ((1 - Real.arsinh (Real.tan (b.max_lat * Real.pi / 180))
        / Real.pi) / 2 * 2 ^ zoom))
    unfold toBottom
    omega

/-- C6 witness: the sorted box `[0, 0, 1, 1]` at zoom 0. -/
theorem C6_range_sorted_witness :
    (0 : ℕ) ≤ 22 ∧ (0 : ℝ) ≤ 1 ∧ (0 : ℝ) ≤ 1 ∧ (-90 : ℝ) < 0 ∧ (1 : ℝ) < 90 ∧
    (((bbox_to_tile_range ⟨0, 0, 1, 1⟩ 0).min_x ≤ (bbox_to_tile_range ⟨0, 0, 1, 1⟩ 0).max_x ∧
      (bbox_to_tile_range ⟨0, 0, 1, 1⟩ 0).min_y ≤ (bbox_to_tile_range ⟨0, 0, 1, 1⟩ 0).max_y) ∧
     ((bbox_to_tile_range_tms ⟨0, 0, 1, 1⟩ 0).min_x ≤
        (bbox_to_tile_range_tms ⟨0, 0, 1, 1⟩ 0).max_x ∧
      (bbox_to_tile_range_tms ⟨0, 0, 1, 1⟩ 0).min_y ≤
        (bbox_to_tile_range_tms ⟨0, 0, 1, 1⟩ 0).max_y)) :=
  ⟨le_refl 0 |>.trans (by norm_num), by norm_num, by norm_num, by norm_num, by norm_num,
    C6_range_sorted ⟨0, 0, 1, 1⟩ 0 (by norm_num) (by norm_num) (by norm_num) (by norm_num)
      (by norm_num)⟩

end TileMap

namespace TileMap

/-- C4 counterexample: the claim as stated is false.  At latitude 89,
longitude 0, zoom 0, the row expression
`(1 - asinh(tan(radians(89)))/π)/2` lies strictly between -1 and 0, so
Python's `int()` (truncation toward zero) returns 0 while the claimed
`floor` is -1. -/
theorem C4_row_not_floor :
    (lat_lon_to_tile 89 0 0).2 ≠
      ⌊(1 - Real.arsinh (Real.tan ((89 : ℝ) * Real.pi / 180)) / Real.pi) / 2
        * 2 ^ (0 : ℕ)⌋ := by
  show pyTrunc ((1 - Real.arsinh (Real.tan ((89 : ℝ) * Real.pi / 180)) / Real.pi) / 2
      * 2 ^ (0 : ℕ)) ≠
    ⌊(1 - Real.arsinh (Real.tan ((89 : ℝ) * Real.pi / 180)) / Real.pi) / 2 * 2 ^ (0 : ℕ)⌋
  have hpi : (0 : ℝ) < Real.pi := Real.pi_pos
  set θ : ℝ := 89 * Real.pi / 180 with hθ
  have hθ' : θ = Real.pi / 2 - Real.pi / 180 := by rw [hθ]; ring
  have hcos : Real.cos θ = Real.sin (Real.pi / 180) := by
    rw [hθ', Real.cos_pi_div_two_sub]
  have hsin : Real.sin θ = Real.cos (Real.pi / 180) := by
    rw [hθ', Real.sin_pi_div_two_sub]
  have hsmall_pos : (0 : ℝ) < Real.pi / 180 := by positivity
  have hub : Real.pi / 180 ≤ 0.0175 := by nlinarith [Real.pi_lt_d2]
  have hlb : (0.01744 : ℝ) < Real.pi / 180 := by nlinarith [Real.pi_gt_d2]
  have hs_lt : Real.sin (Real.pi / 180) < Real.pi / 180 := Real.sin_lt hsmall_pos
  have hs_pos : 0 < Real.sin (Real.pi / 180) :=
    Real.sin_pos_of_pos_of_lt_pi hsmall_pos (by nlinarith [Real.pi_gt_three])
  have hc_big : (0.99 : ℝ) ≤ Real.cos (Real.pi / 180) := by
    have h := @Real.one_sub_sq_div_two_le_cos (Real.pi / 180)
    nlinarith [hsmall_pos]
  have hs_big : (0.017 : ℝ) < Real.sin (Real.pi / 180) := by
    have hx1 : Real.pi / 180 ≤ 1 := by linarith
    have h := Real.sin_gt_sub_cube hsmall_pos hx1
    have hcube : (Real.pi / 180) ^ 3 ≤ (0.0175 : ℝ) ^ 3 :=
      pow_le_pow_left hsmall_pos.le hub 3
    nlinarith
  have htan : Real.tan θ = Real.cos (Real.pi / 180) / Real.sin (Real.pi / 180) := by
    rw [Real.tan_eq_sin_div_cos, hsin, hcos]
  have hexp4 : Real.exp 4 < 55 := by
    have h4 : Real.exp 4 = Real.exp 1 ^ 4 := by
      rw [show (4 : ℝ) = 1 + 1 + 1 + 1 by norm_num, Real.exp_add, Real.exp_add, Real.exp_add]
      ring
    rw [h4]
    calc Real.exp 1 ^ 4 < 2.7182818286 ^ 4 :=
          pow_lt_pow_left Real.exp_one_lt_d9 (Real.exp_pos 1).le (by norm_num)
      _ < 55 := by norm_num
  have hsinh_pi : Real.sinh Real.pi < 27.5 := by
    rw [Real.sinh_eq]
    have h1 : Real.exp Real.pi < Real.exp 4 :=
      Real.exp_lt_exp.mpr (by nlinarith [Real.pi_lt_d2])
    have h2 : 0 < Real.exp (-Real.pi) := Real.exp_pos _
    nlinarith
  have htan_big : (28 : ℝ) < Real.tan θ := by
    rw [htan, lt_div_iff hs_pos]
    nlinarith
  have hexp9 : (8100 : ℝ) < Real.exp 9 := by
    have h9 : Real.exp 9 = Real.exp 1 ^ 9 := by
      rw [show (9 : ℝ) = 1 + 1 + 1 + 1 + 1 + 1 + 1 + 1 + 1 by norm_num]
      rw [Real.exp_add, Real.exp_add, Real.exp_add, Real.exp_add, Real.exp_add,
        Real.exp_add, Real.exp_add, Real.exp_add]
      ring
    rw [h9]
    calc (8100 : ℝ) < 2.7182818283 ^ 9 := by norm_num
      _ < Real.exp 1 ^ 9 :=
          pow_lt_pow_left Real.exp_one_gt_d9 (by norm_num) (by norm_num)
  have htan_small : Real.tan θ < 59 := by
    rw [htan, div_lt_iff hs_pos]
    nlinarith [Real.cos_le_one (Real.pi / 180)]
  have hsinh3pi : (59 : ℝ) < Real.sinh (3 * Real.pi) := by
    have h1 : Real.sinh 9 < Real.sinh (3 * Real.pi) :=
      Real.sinh_lt_sinh.mpr (by nlinarith [Real.pi_gt_three])
    have h2 : (59 : ℝ) < Real.sinh 9 := by
      rw [Real.sinh_eq]
      have h3 : Real.exp (-9 : ℝ) < 1 := by
        have := Real.exp_lt_exp.mpr (show (-9 : ℝ) < 0 by norm_num)
        rwa [Real.exp_zero] at this
      nlinarith
    linarith
  set a : ℝ := Real.arsinh (Real.tan θ) with ha
  have ha1 : Real.pi < a := by
    have h := Real.arsinh_lt_arsinh.mpr (show Real.sinh Real.pi < Real.tan θ by linarith)
    rwa [Real.arsinh_sinh] at h
  have ha2 : a < 3 * Real.pi := by
    have h := Real.arsinh_lt_arsinh.mpr (show Real.tan θ < Real.sinh (3 * Real.pi) by linarith)
    rwa [Real.arsinh_sinh] at h
  set v : ℝ := (1 - a / Real.pi) / 2 * 2 ^ (0 : ℕ) with hv
  have hv' : v = (1 - a / Real.pi) / 2 := by rw [hv]; norm_num
  have hv_neg : v < 0 := by
    rw [hv']
    have : 1 < a / Real.pi := (one_lt_div hpi).mpr ha1
    linarith
  have hv_gt : (-1 : ℝ) < v := by
    rw [hv']
    have : a / Real.pi < 3 := (div_lt_iff hpi).mpr (by linarith)
    linarith
  have hceil : pyTrunc v = 0 := by
    rw [pyTrunc_of_neg hv_neg, Int.ceil_eq_iff]
    constructor <;> push_cast <;> linarith
  have hfloor : ⌊v⌋ = -1 := by
    rw [Int.floor_eq_iff]
    constructor <;> push_cast <;> linarith
  rw [hceil, hfloor]
  decide

/-- C4 (amended): `lat_lon_to_tile` returns
`column = int((lon + 180)/360 · 2^zoom)` and
`row = int((1 - asinh(tan(radians(lat)))/π)/2 · 2^zoom)` where `int` is
Python truncation toward zero; for `lon ≥ -180` the column expression is
non-negative so the column equals the claimed `floor`, but the row uses
truncation, which agrees with `floor` only when the row expression is
non-negative (it is negative for latitudes near the poles, see the
counterexample). -/
theorem C4_row_trunc (lat lon : ℝ) (zoom : ℕ) (hlon1 : -180 ≤ lon) (hlon2 : lon ≤ 180)
    (hlat1 : -90 < lat) (hlat2 : lat < 90) (hzoom : zoom ≤ 22) :
    lat_lon_to_tile lat lon zoom =
      (⌊(lon + 180) / 360 * 2 ^ zoom⌋,
       pyTrunc ((1 - Real.arsinh (Real.tan (lat * Real.pi / 180)) / Real.pi) / 2
         * 2 ^ zoom)) := by
  clear hlon2 hlat1 hlat2 hzoom
  show (pyTrunc ((lon + 180) / 360 * 2 ^ zoom),
      pyTrunc ((1 - Real.arsinh (Real.tan (lat * Real.pi / 180)) / Real.pi) / 2
        * 2 ^ zoom)) = _
  have h0 : (0 : ℝ) ≤ (lon + 180) / 360 * 2 ^ zoom :=
    mul_nonneg (div_nonneg (by linarith) (by norm_num)) (by positivity)
  rw [pyTrunc_of_nonneg h0]

/-- C4 witness: latitude 0, longitude 0, zoom 0. -/
theorem C4_row_trunc_witness :
    (-180 : ℝ) ≤ 0 ∧ (0 : ℝ) ≤ 180 ∧ (-90 : ℝ) < 0 ∧ (0 : ℝ) < 90 ∧ (0 : ℕ) ≤ 22 ∧
    lat_lon_to_tile 0 0 0 =
      (⌊((0 : ℝ) + 180) / 360 * 2 ^ (0 : ℕ)⌋,
       pyTrunc ((1 - Real.arsinh (Real.tan ((0 : ℝ) * Real.pi / 180)) / Real.pi) / 2
         * 2 ^ (0 : ℕ))) :=
  ⟨by norm_num, by norm_num, by norm_num, by norm_num, by norm_num,
    C4_row_trunc 0 0 0 (by norm_num) (by norm_num) (by norm_num) (by norm_num)
      (by norm_num)⟩

end TileMap

namespace TileMap

/-- C5: for every zoom in `[0, 22]` and every tile `(x, y)` with
`0 ≤ x, y < 2^zoom`, converting the center of `tile_to_bbox x y zoom`
back with `lat_lon_to_tile` at the same zoom yields exactly `(x, y)`. -/
theorem C5_roundtrip (zoom : ℕ) (x y : ℤ) (hzoom : zoom ≤ 22) (hx0 : 0 ≤ x)
    (hx1 : x < 2 ^ zoom) (hy0 : 0 ≤ y) (hy1 : y < 2 ^ zoom) :
    lat_lon_to_tile
        (((tile_to_bbox x y zoom).min_lat + (tile_to_bbox x y zoom).max_lat) / 2)
        (((tile_to_bbox x y zoom).min_lon + (tile_to_bbox x y zoom).max_lon) / 2)
        zoom = (x, y) := by
  clear hzoom hx1 hy1
  have hpi : (0 : ℝ) < Real.pi := Real.pi_pos
  have hn : (0 : ℝ) < 2 ^ zoom := by positivity
  have hnne : (2 : ℝ) ^ zoom ≠ 0 := ne_of_gt hn
  have hminlon : (tile_to_bbox x y zoom).min_lon = (x : ℝ) / 2 ^ zoom * 360 - 180 := rfl
  have hmaxlon : (tile_to_bbox x y zoom).max_lon = ((x : ℝ) + 1) / 2 ^ zoom * 360 - 180 := rfl
  have hminlat : (tile_to_bbox x y zoom).min_lat =
      Real.arctan (Real.sinh (Real.pi * (1 - 2 * ((y : ℝ) + 1) / 2 ^ zoom))) * 180
        / Real.pi := rfl
  have hmaxlat : (tile_to_bbox x y zoom).max_lat =
      Real.arctan (Real.sinh (Real.pi * (1 - 2 * (y : ℝ) / 2 ^ zoom))) * 180 / Real.pi := rfl
  set a : ℝ := Real.pi * (1 - 2 * (y : ℝ) / 2 ^ zoom) with hadef
  set a' : ℝ := Real.pi * (1 - 2 * ((y : ℝ) + 1) / 2 ^ zoom) with haSdef
  have hcol_expr : ((((tile_to_bbox x y zoom).min_lon + (tile_to_bbox x y zoom).max_lon) / 2)
      + 180) / 360 * 2 ^ zoom = (x : ℝ) + 1 / 2 := by
    rw [hminlon, hmaxlon]
    field_simp
    ring
  have hlat_rad : (((tile_to_bbox x y zoom).min_lat + (tile_to_bbox x y zoom).max_lat) / 2)
      * Real.pi / 180 = (Real.arctan (Real.sinh a') + Real.arctan (Real.sinh a)) / 2 := by
    rw [hminlat, hmaxlat]
    field_simp
    ring
  set c : ℝ := (Real.arctan (Real.sinh a') + Real.arctan (Real.sinh a)) / 2 with hcdef
  have haa : a' < a := by
    have hdiff : a - a' = Real.pi * (2 / 2 ^ zoom) := by rw [hadef, haSdef]; ring
    have : (0 : ℝ) < Real.pi * (2 / 2 ^ zoom) := by positivity
    linarith
  have hlt1 : Real.arctan (Real.sinh a') < Real.arctan (Real.sinh a) :=
    Real.arctan_strictMono (Real.sinh_lt_sinh.mpr haa)
  have hc1 : Real.arctan (Real.sinh a') < c := by rw [hcdef]; linarith
  have hc2 : c < Real.arctan (Real.sinh a) := by rw [hcdef]; linarith
  have hmem_c : c ∈ Set.Ioo (-(Real.pi / 2)) (Real.pi / 2) := by
    constructor
    · linarith [Real.neg_pi_div_two_lt_arctan (Real.sinh a')]
    · linarith [Real.arctan_lt_pi_div_two (Real.sinh a)]
  have ht1 : Real.sinh a' < Real.tan c := by
    have h := Real.strictMonoOn_tan (Real.arctan_mem_Ioo (Real.sinh a')) hmem_c hc1
    rwa [Real.tan_arctan] at h
  have ht2 : Real.tan c < Real.sinh a := by
    have h := Real.strictMonoOn_tan hmem_c (Real.arctan_mem_Ioo (Real.sinh a)) hc2
    rwa [Real.tan_arctan] at h
  have hA1 : a' < Real.arsinh (Real.tan c) := by
    have h := Real.arsinh_lt_arsinh.mpr ht1
    rwa [Real.arsinh_sinh] at h
  have hA2 : Real.arsinh (Real.tan c) < a := by
    have h := Real.arsinh_lt_arsinh.mpr ht2
    rwa [Real.arsinh_sinh] at h
  set A : ℝ := Real.arsinh (Real.tan c) with hAdef
  have hApi1 : A / Real.pi < 1 - 2 * (y : ℝ) / 2 ^ zoom := by
    rw [div_lt_iff hpi]
    rw [hadef] at hA2
    linarith [hA2]
  have hApi2 : 1 - 2 * ((y : ℝ) + 1) / 2 ^ zoom < A / Real.pi := by
    rw [lt_div_iff hpi]
    rw [haSdef] at hA1
    linarith [hA1]
  have hrow1 : (y : ℝ) < (1 - A / Real.pi) / 2 * 2 ^ zoom := by
    have h2 : 2 * (y : ℝ) / 2 ^ zoom / 2 < (1 - A / Real.pi) / 2 := by linarith
    calc (y : ℝ) = 2 * (y : ℝ) / 2 ^ zoom / 2 * 2 ^ zoom := by field_simp; ring
      _ < (1 - A / Real.pi) / 2 * 2 ^ zoom := mul_lt_mul_of_pos_right h2 hn
  have hrow2 : (1 - A / Real.pi) / 2 * 2 ^ zoom < (y : ℝ) + 1 := by
    have h2 : (1 - A / Real.pi) / 2 < 2 * ((y : ℝ) + 1) / 2 ^ zoom / 2 := by linarith
    calc (1 - A / Real.pi) / 2 * 2 ^ zoom
        < 2 * ((y : ℝ) + 1) / 2 ^ zoom / 2 * 2 ^ zoom := mul_lt_mul_of_pos_right h2 hn
      _ = (y : ℝ) + 1 := by field_simp; ring
  have hrow0 : (0 : ℝ) ≤ (1 - A / Real.pi) / 2 * 2 ^ zoom := by
    have hy' : (0 : ℝ) ≤ (y : ℝ) := by exact_mod_cast hy0
    linarith
  have hcol0 : (0 : ℝ) ≤ (x : ℝ) + 1 / 2 := by
    have hx' : (0 : ℝ) ≤ (x : ℝ) := by exact_mod_cast hx0
    linarith
  show (pyTrunc ((((((tile_to_bbox x y zoom).min_lon + (tile_to_bbox x y zoom).max_lon) / 2)
        + 180) / 360) * 2 ^ zoom),
      pyTrunc ((1 - Real.arsinh (Real.tan
          ((((tile_to_bbox x y zoom).min_lat + (tile_to_bbox x y zoom).max_lat) / 2)
            * Real.pi / 180)) / Real.pi) / 2 * 2 ^ zoom)) = (x, y)
  rw [show (((((tile_to_bbox x y zoom).min_lon + (tile_to_bbox x y zoom).max_lon) / 2)
        + 180) / 360) * 2 ^ zoom =
      ((((tile_to_bbox x y zoom).min_lon + (tile_to_bbox x y zoom).max_lon) / 2)
        + 180) / 360 * 2 ^ zoom from rfl]
  rw [hcol_expr, hlat_rad, ← hAdef]
  have hfst : pyTrunc ((x : ℝ) + 1 / 2) = x := by
    rw [pyTrunc_of_nonneg hcol0, add_comm, Int.floor_add_int]
    have : ⌊(1 / 2 : ℝ)⌋ = 0 := by
      rw [Int.floor_eq_zero_iff]
      constructor <;> norm_num
    rw [this]
    ring
  have hsnd : pyTrunc ((1 - A / Real.pi) / 2 * 2 ^ zoom) = y := by
    rw [pyTrunc_of_nonneg hrow0, Int.floor_eq_iff]
    constructor
    · exact hrow1.le
    · push_cast
      exact hrow2
  rw [hfst, hsnd]

/-- C5 witness: zoom 0, tile (0, 0). -/
theorem C5_roundtrip_witness :
    (0 : ℕ) ≤ 22 ∧ (0 : ℤ) ≤ 0 ∧ (0 : ℤ) < 2 ^ (0 : ℕ) ∧
    lat_lon_to_tile
        (((tile_to_bbox 0 0 0).min_lat + (tile_to_bbox 0 0 0).max_lat) / 2)
        (((tile_to_bbox 0 0 0).min_lon + (tile_to_bbox 0 0 0).max_lon) / 2)
        0 = (0, 0) :=
  ⟨by norm_num, by norm_num, by norm_num,
    C5_roundtrip 0 0 0 (by norm_num) (by norm_num) (by norm_num) (by norm_num) (by norm_num)⟩

end TileMap
